import Mathlib

/-!
Verification development for the configuration resolution pipeline and the
API-routing resource synthesizer of the `kes` repository
(`src/config.js`, class `Config`).

The JavaScript source is shallowly embedded:
pure functions become Lean functions, JS objects used as ordered key/value
maps become association lists with JS `Object.assign` semantics, thrown
exceptions become `Except` errors, and absent (`undefined`) fields become
`Option` values.
-/

namespace Kes

/-- Scalar values held in a configuration or stage document
(the YAML-like data model at the points the claims touch). -/
inductive Val where
  | str : String → Val
  | num : Int → Val
  | boolean : Bool → Val
deriving DecidableEq, Repr

/-! ## Association lists with JavaScript object semantics

A JS object is modelled as an insertion-ordered association list.
`assocSet` mirrors property assignment `o[k] = v`: an existing key keeps its
position and gets the new value, a fresh key is appended.  `objAssign`
mirrors `Object.assign(target, source)`: every own key of `source` is
assigned onto `target` in order, so `source` wins on key collision. -/

/-- Lookup of key `k` in an association list (first binding wins,
as for JS object property access; keys are unique in real JS objects). -/
def assocLookup (m : List (String × α)) (k : String) : Option α :=
  match m with
  | [] => none
  | (kh, v) :: rest => if kh = k then some v else assocLookup rest k

/-- Property assignment `o[k] = v` on a JS object: overwrite in place,
or append a fresh key. -/
def assocSet (m : List (String × α)) (k : String) (v : α) : List (String × α) :=
  match m with
  | [] => [(k, v)]
  | (kh, vh) :: rest => if kh = k then (kh, v) :: rest else (kh, vh) :: assocSet rest k v

/-- `Object.assign(target, source)`: assign every binding of `source` onto
`target`, in source order. -/
def objAssign (target source : List (String × α)) : List (String × α) :=
  source.foldl (fun acc kv => assocSet acc kv.1 kv.2) target

/-! ## String helpers used by `configureApiGateway`

These embed the JS/lodash string operations that appear in
`src/config.js` lines 76-131, written over `List Char` so that they are
structurally recursive and kernel-computable. -/

/-- Worker for `splitChar`. -/
def splitCharAux (c : Char) : List Char → List Char → List String
  | [], acc => [String.mk acc.reverse]
  | x :: xs, acc =>
    if x = c then String.mk acc.reverse :: splitCharAux c xs []
    else splitCharAux c xs (x :: acc)

/-- JS `s.split(c)` for a one-character separator, as used by
`api.path.split('/')` (line 76).  A leading separator produces a leading
empty segment, exactly as in JS. -/
def splitChar (c : Char) (s : String) : List String :=
  splitCharAux c s.toList []

/-- lodash `startsWith(segment, c)` for a one-character needle (line 88). -/
def startsWithChar (c : Char) (s : String) : Bool :=
  match s.toList with
  | [] => false
  | x :: _ => x = c

/-- lodash `trim(s, chars)`: strip any of the given characters from both
ends of the string (line 89, with chars `{}`). -/
def trimChars (s : String) (cs : List Char) : String :=
  String.mk (((s.toList.dropWhile (fun c => cs.contains c)).reverse.dropWhile
    (fun c => cs.contains c)).reverse)

/-- Worker removing the first underscore of a character list. -/
def removeFirstUnderscore : List Char → List Char
  | [] => []
  | c :: rest => if c = '_' then rest else c :: removeFirstUnderscore rest

/-- lodash `replace(s, '_', '')` with a plain-string pattern: it replaces
only the FIRST occurrence of the underscore (line 89). -/
def replaceFirstUnderscore (s : String) : String :=
  String.mk (removeFirstUnderscore s.toList)

/-- lodash `upperFirst(s)`: upper-case the first character, leave the rest
unchanged (line 92). -/
def upperFirst (s : String) : String :=
  match s.toList with
  | [] => ""
  | c :: rest => String.mk (c.toUpper :: rest)

/-- lodash `capitalize(s)`: upper-case the first character and lower-case
the remainder (lines 123, 126). -/
def capitalize (s : String) : String :=
  match s.toList with
  | [] => ""
  | c :: rest => String.mk (c.toUpper :: rest.map Char.toLower)

/-- JS `s.toUpperCase()` (ASCII range, line 131). -/
def strToUpper (s : String) : String :=
  String.mk (s.toList.map Char.toUpper)

/-! ## Data model for the synthesizer -/

/-- One entry of the top-level `apis` list: only its `name` is read
(line 56). -/
structure ApiDecl where
  name : String
deriving DecidableEq, Repr

/-- A route declaration inside the `apiGateway` list of a lambda entry:
`{api, path, method, cors}` (lines 69, 76, 119, 123, 132, 151). -/
structure Route where
  api : String
  path : String
  method : String
  cors : Bool
deriving DecidableEq, Repr

/-- A `services` entry of a lambda entry.  The code only writes its
`lambdaName` property (line 201); all other data is never inspected. -/
structure Service where
  lambdaName : Option String
  payload : String
deriving DecidableEq, Repr

/-- A lambda entry of the `lambdas` sequence, restricted to the fields the
embedded code reads or writes.  `none` models an absent (JS `undefined`)
field. -/
structure LambdaSpec where
  name : String
  memory : Option Int
  timeout : Option Int
  envs : Option (List (String × String))
  services : Option (List Service)
  apiGateway : Option (List Route)
  fullName : Option String
deriving DecidableEq, Repr

/-- A synthesized API Gateway resource node (lines 115-120). -/
structure ApiResource where
  name : String
  pathPart : String
  parents : List String
  api : String
deriving DecidableEq, Repr

/-- A synthesized method node (lines 129-136). -/
structure ApiMethod where
  name : String
  method : String
  cors : Bool
  resource : String
  lambda : String
  api : String
deriving DecidableEq, Repr

/-- A synthesized CORS OPTIONS method node (lines 152-156). -/
structure ApiMethodOption where
  name : String
  resource : String
  api : String
deriving DecidableEq, Repr

/-- One entry of the exported `apiDependencies` array (lines 166-169);
the accumulated method entries each carry only a `name` (line 141), so
they are modelled as the list of those names. -/
structure ApiDependency where
  name : String
  methods : List String
deriving DecidableEq, Repr

/-- The configuration document at the points the embedded code touches it:
`fields` holds the generic scalar members (`stackName`, `stage`, merged
stage variables, ...) as a JS object, and the remaining members are the
typed sequences the code reads and the synthesizer output keys it writes. -/
structure Config where
  fields : List (String × Val)
  lambdas : Option (List LambdaSpec)
  apis : Option (List ApiDecl)
  apiMethods : Option (List ApiMethod)
  apiResources : Option (List ApiResource)
  apiMethodsOptions : Option (List ApiMethodOption)
  apiDependencies : Option (List ApiDependency)
deriving DecidableEq, Repr

/-- The two ways `configureApiGateway` can throw: iterating an absent
`config.lambdas` (line 65, a `TypeError`), and pushing onto the dependency
list of an api name that was never declared (lines 139-147, a `TypeError`
logged as `<api> is not defined` and rethrown). -/
inductive SynthError where
  | lambdasNotIterable : SynthError
  | undeclaredApi : String → SynthError
deriving DecidableEq, Repr

/-- The user-visible diagnostic for each error; for an undeclared api the
code prints `` `${api.api} is not defined` `` (line 145) before rethrowing. -/
def SynthError.message : SynthError → String
  | .lambdasNotIterable => "config.lambdas is not iterable"
  | .undeclaredApi a => a ++ " is not defined"

/-! ## The synthesizer (`configureApiGateway`, lines 48-174) -/

/-- Display name of one path segment (lines 82-92): a brace-delimited
variable has its braces trimmed, its first underscore removed and `Var`
appended; every name then gets its first letter upper-cased. -/
def segmentName (segment : String) : String :=
  let name :=
    if startsWithChar '{' segment then
      replaceFirstUnderscore (trimChars segment ['{', '}']) ++ "Var"
    else segment
  upperFirst name

/-- The running list of display names of a route path (the `segmentNames`
array, lines 80-93). -/
def routeSegmentNames (path : String) : List String :=
  (splitChar '/' path).map segmentName

/-- Processing of one segment at position `idx` (lines 82-121): compute its
dedup key and parent reference and insert/overwrite the resource node at
that key. -/
def addSegmentResource (apiName : String) (allNames : List String)
    (resources : List (String × ApiResource)) (idx : Nat) (segment : String) :
    List (String × ApiResource) :=
  let key := if idx = 0 then segmentName segment
             else String.join (allNames.take (idx + 1))
  let parents :=
    if idx = 0 then
      ["Fn::GetAtt:", "- " ++ apiName ++ "RestApi", "- RootResourceId"]
    else
      ["Ref: ApiGateWayResource" ++ String.join (allNames.take idx)]
  assocSet resources key
    { name := "ApiGateWayResource" ++ key, pathPart := segment,
      parents := parents, api := apiName }

/-- The `segments.forEach` loop of one route (lines 82-121). -/
def routeResources (apiName : String) (segments : List String)
    (resources : List (String × ApiResource)) : List (String × ApiResource) :=
  segments.enum.foldl
    (fun acc p => addSegmentResource apiName (segments.map segmentName) acc p.1 p.2)
    resources

/-- The mutable accumulators of `configureApiGateway`
(lines 51-53 and 61). -/
structure SynthState where
  apiMethods : List ApiMethod
  apiMethodsOptions : List (String × ApiMethodOption)
  apiDependencies : List (String × List String)
  apiResources : List (String × ApiResource)
deriving DecidableEq, Repr

/-- Processing of one route declaration (lines 76-157): build the segment
resources, append the method node, push its name onto the dependency
list of the owning api (error if that api was never declared), and insert the
CORS OPTIONS node keyed by the leaf when `cors` is set. -/
def processRoute (lambdaName : String) (s : SynthState) (route : Route) :
    Except SynthError SynthState :=
  let segments := splitChar '/' route.path
  let segNames := routeSegmentNames route.path
  let resources := routeResources route.api segments s.apiResources
  let method := capitalize route.method
  let name := String.join segNames
  let methodName := "ApiGatewayMethod" ++ name ++ capitalize method
  let methodNode : ApiMethod :=
    { name := methodName, method := strToUpper method, cors := route.cors,
      resource := "ApiGateWayResource" ++ name, lambda := lambdaName,
      api := route.api }
  match assocLookup s.apiDependencies route.api with
  | none => Except.error (SynthError.undeclaredApi route.api)
  | some methods =>
    Except.ok
      { apiMethods := s.apiMethods ++ [methodNode],
        apiMethodsOptions :=
          if route.cors then
            assocSet s.apiMethodsOptions name
              { name := "ApiGatewayMethod" ++ name ++ "Options",
                resource := "ApiGateWayResource" ++ name, api := route.api }
          else s.apiMethodsOptions,
        apiDependencies :=
          assocSet s.apiDependencies route.api (methods ++ [methodName]),
        apiResources := resources }

/-- Processing of one lambda entry (lines 65-160): only entries with an
`apiGateway` property contribute routes. -/
def processLambda (s : SynthState) (l : LambdaSpec) : Except SynthError SynthState :=
  match l.apiGateway with
  | some routes => routes.foldlM (processRoute l.name) s
  | none => Except.ok s

/-- The dependency-list seeding loop (lines 55-57). -/
def initDependencies (apis : List ApiDecl) : List (String × List String) :=
  apis.foldl (fun acc api => assocSet acc api.name []) []

/-- `Config.configureApiGateway` (lines 48-174), composed with the
`Object.assign(config, ...)` of `parseConfig` line 282 that copies the four
produced arrays onto the document.  When `apis` is absent the function is a
passthrough; when it is present but `lambdas` is absent, the `for ... of
config.lambdas` loop throws a `TypeError`. -/
def configureApiGateway (config : Config) : Except SynthError Config :=
  match config.apis with
  | none => Except.ok config
  | some apis =>
    let s0 : SynthState :=
      { apiMethods := [], apiMethodsOptions := [],
        apiDependencies := initDependencies apis, apiResources := [] }
    match config.lambdas with
    | none => Except.error SynthError.lambdasNotIterable
    | some lambdas =>
      match lambdas.foldlM processLambda s0 with
      | Except.error e => Except.error e
      | Except.ok s =>
        Except.ok
          { config with
            apiMethods := some s.apiMethods,
            apiResources := some (s.apiResources.map Prod.snd),
            apiMethodsOptions := some (s.apiMethodsOptions.map Prod.snd),
            apiDependencies :=
              some (s.apiDependencies.map (fun kv => { name := kv.1, methods := kv.2 })) }

/-! ## The lambda defaulter (`configureLambda`, lines 186-215) -/

/-- JS template-literal coercion of a possibly-absent scalar, as in
`` `${config.stackName}-${config.stage}-${lambda.name}` `` (line 210). -/
def jsTemplateVal : Option Val → String
  | none => "undefined"
  | some (Val.str s) => s
  | some (Val.num n) => toString n
  | some (Val.boolean b) => if b then "true" else "false"

/-- The per-entry body of `configureLambda` (lines 189-211). -/
def configureLambdaEntry (stackName stage : String) (l : LambdaSpec) : LambdaSpec :=
  let l := if l.memory.isNone then { l with memory := some 1024 } else l
  let l := if l.timeout.isNone then { l with timeout := some 300 } else l
  let l :=
    match l.services with
    | some services =>
      { l with services := some (services.map (fun (sv : Service) => { sv with lambdaName := some l.name })) }
    | none => l
  let l := if l.envs.isNone then { l with envs := some [] } else l
  { l with fullName := some (stackName ++ "-" ++ stage ++ "-" ++ l.name) }

/-- `Config.configureLambda` (lines 186-215): a no-op when `lambdas` is
absent, otherwise a positional rewrite of every entry. -/
def configureLambda (config : Config) : Config :=
  match config.lambdas with
  | none => config
  | some lambdas =>
    { config with
      lambdas := some (lambdas.map
        (configureLambdaEntry
          (jsTemplateVal (assocLookup config.fields "stackName"))
          (jsTemplateVal (assocLookup config.fields "stage")))) }

/-! ## Stage resolution (`parseStage`, lines 224-247) -/

/-- The parsed stage document: its `default` section and the named stage
sections (held apart from `default` for clarity; the claims never select a
stage literally named `default`). -/
structure StageDoc where
  defaultSection : List (String × Val)
  sections : List (String × List (String × Val))
deriving DecidableEq, Repr

/-- The merge-and-return tail of `Config.parseStage` (lines 243-246), after
the file read / render / YAML-parse steps: when a stage name is supplied
(truthy, i.e. non-empty), `Object.assign` its section onto the `default`
section and return the `default` section. -/
def parseStage (stage : Option String) (stageConfig : StageDoc) : List (String × Val) :=
  match stage with
  | none => stageConfig.defaultSection
  | some s =>
    if s = "" then stageConfig.defaultSection
    else
      match assocLookup stageConfig.sections s with
      | none => stageConfig.defaultSection
      | some sec => objAssign stageConfig.defaultSection sec

/-! ## Config resolution (`parseConfig`, lines 257-285) -/

/-- Lines 272-274: `if (this.stack) config.stackName = this.stack` (a JS
string is truthy iff non-empty). -/
def applyStackOverride (stack : Option String) (doc : Config) : Config :=
  match stack with
  | some s =>
    if s = "" then doc
    else { doc with fields := assocSet doc.fields "stackName" (Val.str s) }
  | none => doc

/-- Lines 276-278: `if (this.stage) config.stage = this.stage`. -/
def applyStageOverride (stage : Option String) (doc : Config) : Config :=
  match stage with
  | some s =>
    if s = "" then doc
    else { doc with fields := assocSet doc.fields "stage" (Val.str s) }
  | none => doc

/-- The document-transform tail of `Config.parseConfig` (lines 260 and
272-284), after the Mustache render / YAML parse pipeline has produced the
parsed document `doc`: merge the env-file variables onto the stage
variables (line 260), overwrite `stackName` and `stage` when externally
supplied and truthy (lines 272-278), `Object.assign` the merged stage
variables onto the document (line 280), then run the lambda defaulter and
the API gateway synthesizer (lines 281-282). -/
def parseConfigResolve (stack stage : Option String) (envs : List (String × Val))
    (doc : Config) (stageVars : List (String × Val)) : Except SynthError Config :=
  let stageConfig := objAssign stageVars envs
  let config := applyStageOverride stage (applyStackOverride stack doc)
  let config := { config with fields := objAssign config.fields stageConfig }
  configureApiGateway (configureLambda config)

/-! ## Association-list lemmas -/

theorem assocLookup_set_self (m : List (String × α)) (k : String) (v : α) :
    assocLookup (assocSet m k v) k = some v := by
  induction m with
  | nil => simp [assocSet, assocLookup]
  | cons kv rest ih =>
    obtain ⟨kh, vh⟩ := kv
    by_cases h : kh = k
    · subst h; simp [assocSet, assocLookup]
    · simp [assocSet, assocLookup, h, ih]

theorem assocLookup_set_ne (m : List (String × α)) (k k2 : String) (v : α)
    (hne : k ≠ k2) :
    assocLookup (assocSet m k v) k2 = assocLookup m k2 := by
  induction m with
  | nil => simp [assocSet, assocLookup, hne]
  | cons kv rest ih =>
    obtain ⟨kh, vh⟩ := kv
    by_cases h : kh = k
    · subst h; simp [assocSet, assocLookup, hne]
    · simp [assocSet, assocLookup, h, ih]

theorem assocLookup_eq_none (m : List (String × α)) (k : String) :
    assocLookup m k = none ↔ k ∉ m.map Prod.fst := by
  induction m with
  | nil => simp [assocLookup]
  | cons kv rest ih =>
    obtain ⟨kh, vh⟩ := kv
    by_cases h : kh = k
    · subst h; simp [assocLookup]
    · simp [assocLookup, h, ih, Ne.symm h]

theorem assocLookup_mem (m : List (String × α)) (k : String)
    (h : k ∈ m.map Prod.fst) : ∃ v, assocLookup m k = some v := by
  cases hv : assocLookup m k with
  | none => exact absurd h ((assocLookup_eq_none m k).mp hv)
  | some v => exact ⟨v, rfl⟩

theorem assocSet_keys_of_lookup (m : List (String × α)) (k : String) (v v0 : α) :
    assocLookup m k = some v0 →
      (assocSet m k v).map Prod.fst = m.map Prod.fst := by
  induction m with
  | nil => intro h; simp [assocLookup] at h
  | cons kv rest ih =>
    intro h
    obtain ⟨kh, vh⟩ := kv
    by_cases hk : kh = k
    · simp [assocSet, hk]
    · simp [assocLookup, hk] at h
      simp [assocSet, hk, ih h]

theorem mem_keys_assocSet (m : List (String × α)) (k a : String) (v : α) :
    a ∈ (assocSet m k v).map Prod.fst ↔ a ∈ m.map Prod.fst ∨ a = k := by
  induction m with
  | nil => simp [assocSet]
  | cons kv rest ih =>
    obtain ⟨kh, vh⟩ := kv
    by_cases hk : kh = k
    · subst hk; simp [assocSet]; tauto
    · simp [assocSet, hk, ih]; tauto

theorem objAssign_nil (target : List (String × α)) : objAssign target [] = target := rfl

theorem objAssign_cons (target : List (String × α)) (k : String) (v : α)
    (source : List (String × α)) :
    objAssign target ((k, v) :: source) = objAssign (assocSet target k v) source := rfl

theorem assocLookup_objAssign_of_none (source : List (String × α)) :
    ∀ target (k : String), assocLookup source k = none →
      assocLookup (objAssign target source) k = assocLookup target k := by
  induction source with
  | nil => intro target k _; rfl
  | cons kv rest ih =>
    intro target k h
    obtain ⟨kh, vh⟩ := kv
    by_cases hk : kh = k
    · simp [assocLookup, hk] at h
    · simp only [assocLookup, if_neg hk] at h
      rw [objAssign_cons, ih _ k h, assocLookup_set_ne _ _ _ _ hk]

theorem assocLookup_objAssign_of_some (source : List (String × α)) :
    ∀ target (k : String) (v : α), (source.map Prod.fst).Nodup →
      assocLookup source k = some v →
      assocLookup (objAssign target source) k = some v := by
  induction source with
  | nil => intro target k v _ h; simp [assocLookup] at h
  | cons kv rest ih =>
    intro target k v hnd h
    obtain ⟨kh, vh⟩ := kv
    simp only [List.map_cons, List.nodup_cons] at hnd
    by_cases hk : kh = k
    · subst hk
      simp [assocLookup] at h
      have hrest : assocLookup rest kh = none :=
        (assocLookup_eq_none rest kh).mpr hnd.1
      rw [objAssign_cons, assocLookup_objAssign_of_none rest _ _ hrest,
        assocLookup_set_self, h]
    · simp only [assocLookup, if_neg hk] at h
      rw [objAssign_cons, ih _ k v hnd.2 h]

/-! ## ASCII case-conversion lemmas -/

theorem char_toNat_ofNat (n : Nat) (h : n < 55296) : (Char.ofNat n).toNat = n := by
  unfold Char.ofNat
  rw [dif_pos (Or.inl h)]
  rfl

theorem char_toUpper_eq (c : Char) :
    c.toUpper = if c.toNat ≥ 97 ∧ c.toNat ≤ 122 then Char.ofNat (c.toNat - 32) else c := rfl

theorem char_toLower_eq (c : Char) :
    c.toLower = if c.toNat ≥ 65 ∧ c.toNat ≤ 90 then Char.ofNat (c.toNat + 32) else c := rfl

theorem char_toNat_lt (c : Char) : c.toNat < 1114112 := by
  rcases c.valid with h | h
  · exact Nat.lt_trans h (by decide)
  · exact h.2

theorem char_toUpper_toUpper (c : Char) : c.toUpper.toUpper = c.toUpper := by
  by_cases h : c.toNat ≥ 97 ∧ c.toNat ≤ 122
  · have h2 : c.toUpper.toNat = c.toNat - 32 := by
      rw [char_toUpper_eq, if_pos h]
      exact char_toNat_ofNat _ (by omega)
    rw [char_toUpper_eq c.toUpper, if_neg (by rw [h2]; omega)]
  · have h2 : c.toUpper = c := by rw [char_toUpper_eq, if_neg h]
    simp [h2]

theorem char_toLower_toLower (c : Char) : c.toLower.toLower = c.toLower := by
  by_cases h : c.toNat ≥ 65 ∧ c.toNat ≤ 90
  · have h2 : c.toLower.toNat = c.toNat + 32 := by
      rw [char_toLower_eq, if_pos h]
      exact char_toNat_ofNat _ (by omega)
    rw [char_toLower_eq c.toLower, if_neg (by rw [h2]; omega)]
  · have h2 : c.toLower = c := by rw [char_toLower_eq, if_neg h]
    simp [h2]

theorem char_toUpper_toLower (c : Char) : c.toLower.toUpper = c.toUpper := by
  by_cases h : c.toNat ≥ 65 ∧ c.toNat ≤ 90
  · have h2 : c.toLower.toNat = c.toNat + 32 := by
      rw [char_toLower_eq, if_pos h]
      exact char_toNat_ofNat _ (by omega)
    rw [char_toUpper_eq c.toLower, if_pos (by rw [h2]; omega), h2]
    have h3 : c.toNat + 32 - 32 = c.toNat := by omega
    rw [h3, Char.ofNat_toNat, char_toUpper_eq, if_neg (by omega)]
  · have h2 : c.toLower = c := by rw [char_toLower_eq, if_neg h]
    rw [h2]

theorem string_toList_mk (l : List Char) : (String.mk l).toList = l := rfl

theorem char_toLower_comp : Char.toLower ∘ Char.toLower = Char.toLower :=
  funext char_toLower_toLower

theorem char_toUpper_toLower_comp : Char.toUpper ∘ Char.toLower = Char.toUpper :=
  funext char_toUpper_toLower

theorem capitalize_capitalize (s : String) : capitalize (capitalize s) = capitalize s := by
  unfold capitalize
  cases s.toList with
  | nil => rfl
  | cons c rest =>
    simp [string_toList_mk, char_toUpper_toUpper, List.map_map, char_toLower_comp]

theorem strToUpper_capitalize (s : String) : strToUpper (capitalize s) = strToUpper s := by
  unfold capitalize strToUpper
  cases s.toList with
  | nil => rfl
  | cons c rest =>
    simp [string_toList_mk, char_toUpper_toUpper, List.map_map,
      char_toUpper_toLower_comp]

/-! ## Bind unfolding for `Except` -/

theorem except_bind_ok (a : α) (f : α → Except ε β) :
    (Except.ok a >>= f) = f a := rfl

theorem except_bind_err (e : ε) (f : α → Except ε β) :
    ((Except.error e : Except ε α) >>= f) = Except.error e := rfl

/-! ## Dependency-key tracking through the synthesizer folds -/

theorem processRoute_ok_of_mem (ln : String) (s : SynthState) (r : Route)
    (h : r.api ∈ s.apiDependencies.map Prod.fst) :
    ∃ s2, processRoute ln s r = Except.ok s2 ∧
      s2.apiDependencies.map Prod.fst = s.apiDependencies.map Prod.fst := by
  obtain ⟨v, hv⟩ := assocLookup_mem _ _ h
  unfold processRoute
  rw [hv]
  exact ⟨_, rfl, assocSet_keys_of_lookup _ _ _ _ hv⟩

theorem processRoute_ok_keys (ln : String) (s : SynthState) (r : Route) (s2 : SynthState)
    (h : processRoute ln s r = Except.ok s2) :
    s2.apiDependencies.map Prod.fst = s.apiDependencies.map Prod.fst := by
  unfold processRoute at h
  cases hv : assocLookup s.apiDependencies r.api with
  | none => rw [hv] at h; simp at h
  | some v =>
    rw [hv] at h
    have h2 := Except.ok.inj h
    rw [← h2]
    exact assocSet_keys_of_lookup _ _ _ _ hv

theorem processRoute_err (ln : String) (s : SynthState) (r : Route)
    (h : r.api ∉ s.apiDependencies.map Prod.fst) :
    processRoute ln s r = Except.error (SynthError.undeclaredApi r.api) := by
  have hv : assocLookup s.apiDependencies r.api = none :=
    (assocLookup_eq_none _ _).mpr h
  unfold processRoute
  rw [hv]

theorem foldRoutes_ok_keys (ln : String) (routes : List Route) :
    ∀ s s2, routes.foldlM (processRoute ln) s = Except.ok s2 →
      s2.apiDependencies.map Prod.fst = s.apiDependencies.map Prod.fst := by
  induction routes with
  | nil =>
    intro s s2 h
    simp only [List.foldlM] at h
    rw [← Except.ok.inj h]
  | cons r rest ih =>
    intro s s2 h
    simp only [List.foldlM] at h
    cases hr : processRoute ln s r with
    | error e => rw [hr, except_bind_err] at h; simp at h
    | ok s1 =>
      rw [hr, except_bind_ok] at h
      rw [ih s1 s2 h, processRoute_ok_keys ln s r s1 hr]

theorem foldRoutes_ok_of_all (ln : String) (routes : List Route) :
    ∀ s, (∀ r ∈ routes, r.api ∈ s.apiDependencies.map Prod.fst) →
      ∃ s2, routes.foldlM (processRoute ln) s = Except.ok s2 ∧
        s2.apiDependencies.map Prod.fst = s.apiDependencies.map Prod.fst := by
  induction routes with
  | nil => intro s _; exact ⟨s, rfl, rfl⟩
  | cons r rest ih =>
    intro s hall
    obtain ⟨s1, h1, hk1⟩ := processRoute_ok_of_mem ln s r (hall r (by simp))
    obtain ⟨s2, h2, hk2⟩ := ih s1 (fun r2 hr2 => by
      rw [hk1]; exact hall r2 (by simp [hr2]))
    refine ⟨s2, ?_, by rw [hk2, hk1]⟩
    simp only [List.foldlM]
    rw [h1, except_bind_ok, h2]

theorem foldRoutes_err (ln : String) (routes : List Route) :
    ∀ s, (∃ r ∈ routes, r.api ∉ s.apiDependencies.map Prod.fst) →
      ∃ n, routes.foldlM (processRoute ln) s = Except.error (SynthError.undeclaredApi n) ∧
        n ∉ s.apiDependencies.map Prod.fst := by
  induction routes with
  | nil => intro s h; simp at h
  | cons r rest ih =>
    intro s h
    by_cases hmem : r.api ∈ s.apiDependencies.map Prod.fst
    · obtain ⟨s1, h1, hk1⟩ := processRoute_ok_of_mem ln s r hmem
      have hex : ∃ r2 ∈ rest, r2.api ∉ s1.apiDependencies.map Prod.fst := by
        obtain ⟨r2, hr2, hr2n⟩ := h
        rcases List.mem_cons.mp hr2 with h2 | h2
        · subst h2; exact absurd hmem hr2n
        · exact ⟨r2, h2, by rw [hk1]; exact hr2n⟩
      obtain ⟨n, hn, hnm⟩ := ih s1 hex
      refine ⟨n, ?_, by rw [hk1] at hnm; exact hnm⟩
      simp only [List.foldlM]
      rw [h1, except_bind_ok, hn]
    · refine ⟨r.api, ?_, hmem⟩
      simp only [List.foldlM]
      rw [processRoute_err ln s r hmem, except_bind_err]

theorem foldLambdas_err (lambdas : List LambdaSpec) :
    ∀ s, (∃ l ∈ lambdas, ∃ routes, l.apiGateway = some routes ∧
        ∃ r ∈ routes, r.api ∉ s.apiDependencies.map Prod.fst) →
      ∃ n, lambdas.foldlM processLambda s = Except.error (SynthError.undeclaredApi n) ∧
        n ∉ s.apiDependencies.map Prod.fst := by
  induction lambdas with
  | nil => intro s h; simp at h
  | cons l rest ih =>
    intro s h
    by_cases hoff : ∃ routes, l.apiGateway = some routes ∧
        ∃ r ∈ routes, r.api ∉ s.apiDependencies.map Prod.fst
    · obtain ⟨routes, hag, hex⟩ := hoff
      obtain ⟨n, hn, hnm⟩ := foldRoutes_err l.name routes s hex
      have hpl : processLambda s l = Except.error (SynthError.undeclaredApi n) := by
        unfold processLambda; rw [hag]; exact hn
      refine ⟨n, ?_, hnm⟩
      simp only [List.foldlM]
      rw [hpl, except_bind_err]
    · have hok : ∃ s1, processLambda s l = Except.ok s1 ∧
          s1.apiDependencies.map Prod.fst = s.apiDependencies.map Prod.fst := by
        cases hag : l.apiGateway with
        | none => exact ⟨s, by unfold processLambda; rw [hag], rfl⟩
        | some routes =>
          have hall : ∀ r ∈ routes, r.api ∈ s.apiDependencies.map Prod.fst := by
            intro r hr
            by_contra hc
            exact hoff ⟨routes, hag, r, hr, hc⟩
          obtain ⟨s1, h1, hk⟩ := foldRoutes_ok_of_all l.name routes s hall
          exact ⟨s1, by unfold processLambda; rw [hag]; exact h1, hk⟩
      obtain ⟨s1, h1, hk1⟩ := hok
      have hex : ∃ l2 ∈ rest, ∃ routes, l2.apiGateway = some routes ∧
          ∃ r ∈ routes, r.api ∉ s1.apiDependencies.map Prod.fst := by
        obtain ⟨l2, hl2, routes, hag2, r, hr, hrn⟩ := h
        rcases List.mem_cons.mp hl2 with h2 | h2
        · subst h2; exact absurd ⟨routes, hag2, r, hr, hrn⟩ hoff
        · exact ⟨l2, h2, routes, hag2, r, hr, by rw [hk1]; exact hrn⟩
      obtain ⟨n, hn, hnm⟩ := ih s1 hex
      refine ⟨n, ?_, by rw [hk1] at hnm; exact hnm⟩
      simp only [List.foldlM]
      rw [h1, except_bind_ok, hn]

theorem mem_keys_foldInit (apis : List ApiDecl) :
    ∀ (acc : List (String × List String)) (a : String),
      (a ∈ (apis.foldl (fun acc api => assocSet acc api.name []) acc).map Prod.fst ↔
        a ∈ acc.map Prod.fst ∨ a ∈ apis.map ApiDecl.name) := by
  induction apis with
  | nil => intro acc a; simp
  | cons api rest ih =>
    intro acc a
    simp only [List.foldl_cons, List.map_cons, List.mem_cons]
    rw [ih]
    rw [mem_keys_assocSet]
    tauto

theorem mem_keys_initDependencies (apis : List ApiDecl) (a : String) :
    a ∈ (initDependencies apis).map Prod.fst ↔ a ∈ apis.map ApiDecl.name := by
  unfold initDependencies
  rw [mem_keys_foldInit]
  simp

/-! ## Field preservation through the pipeline stages -/

theorem configureLambda_fields (config : Config) :
    (configureLambda config).fields = config.fields := by
  unfold configureLambda
  cases config.lambdas <;> rfl

theorem configureApiGateway_ok_fields (config out : Config)
    (h : configureApiGateway config = Except.ok out) :
    out.fields = config.fields := by
  simp only [configureApiGateway] at h
  split at h
  · rw [← Except.ok.inj h]
  · split at h
    · simp at h
    · split at h
      · simp at h
      · rw [← Except.ok.inj h]

theorem applyStackOverride_lookup (s : String) (hs : s ≠ "") (doc : Config) :
    assocLookup (applyStackOverride (some s) doc).fields "stackName" =
      some (Val.str s) := by
  simp only [applyStackOverride, if_neg hs]
  exact assocLookup_set_self _ _ _

theorem applyStageOverride_lookup_stackName (stage : Option String) (doc : Config) :
    assocLookup (applyStageOverride stage doc).fields "stackName" =
      assocLookup doc.fields "stackName" := by
  cases stage with
  | none => rfl
  | some t =>
    by_cases ht : t = ""
    · simp [applyStageOverride, ht]
    · simp only [applyStageOverride, if_neg ht]
      exact assocLookup_set_ne _ _ _ _ (by decide)

theorem parseConfigResolve_ok_fields (stack stage : Option String)
    (envs : List (String × Val)) (doc : Config) (stageVars : List (String × Val))
    (out : Config)
    (hok : parseConfigResolve stack stage envs doc stageVars = Except.ok out) :
    out.fields =
      objAssign (applyStageOverride stage (applyStackOverride stack doc)).fields
        (objAssign stageVars envs) := by
  simp only [parseConfigResolve] at hok
  have hf := configureApiGateway_ok_fields _ _ hok
  rw [configureLambda_fields] at hf
  exact hf

theorem configureLambdaEntry_idem (stackName stage : String) (l : LambdaSpec) :
    configureLambdaEntry stackName stage (configureLambdaEntry stackName stage l) =
      configureLambdaEntry stackName stage l := by
  obtain ⟨name, memory, timeout, envs, services, apiGateway, fullName⟩ := l
  cases memory <;> cases timeout <;> cases envs <;> cases services <;>
    simp [configureLambdaEntry, List.map_map, Function.comp]

end Kes

deriving instance DecidableEq for Except

namespace Kes

/-! ## Claim C1: external stackName override -/

/-- A config document whose template declared `stackName: template`. -/
def overrideDoc : Config :=
  ⟨[("stackName", Val.str "template")], none, none, none, none, none, none⟩

/-- The document `parseConfig` actually returns for `overrideDoc` when the
stage variables also carry a `stackName`. -/
def overrideOut : Config :=
  ⟨[("stackName", Val.str "fromstage")], none, none, none, none, none, none⟩

/-- C1, counterexample: with external stack name `override` and a
`stackName` key in the stage variables, the `stackName` of the resolved
document is the value from the stage variables, not the external override —
the claim that the external value always wins regardless of the stage
variables or Variable Store is false on the code (the
`Object.assign(config, stageConfig)` of line 280 runs after the override
of lines 272-274). -/
theorem stackName_override_lost_cex :
    parseConfigResolve (some "override") none [] overrideDoc
        [("stackName", Val.str "fromstage")] = Except.ok overrideOut ∧
    assocLookup overrideOut.fields "stackName" = some (Val.str "fromstage") ∧
    ¬ assocLookup overrideOut.fields "stackName" = some (Val.str "override") :=
  ⟨rfl, rfl, by decide⟩

/-- C1 (amended): for every config document and every non-empty external
stack name, the `stackName` of the resolved document equals the external value
regardless of any `stackName` declared in the config template, PROVIDED
the merged stage-variable/Variable-Store mapping carries no `stackName`
key of its own; that mapping is merged after the override and wins
otherwise. -/
theorem stackName_external_override (s : String) (hs : s ≠ "")
    (stage : Option String) (envs stageVars : List (String × Val)) (doc : Config)
    (hnone : assocLookup (objAssign stageVars envs) "stackName" = none)
    (out : Config)
    (hok : parseConfigResolve (some s) stage envs doc stageVars = Except.ok out) :
    assocLookup out.fields "stackName" = some (Val.str s) := by
  rw [parseConfigResolve_ok_fields _ _ _ _ _ _ hok,
    assocLookup_objAssign_of_none _ _ _ hnone,
    applyStageOverride_lookup_stackName,
    applyStackOverride_lookup s hs doc]

/-- The config document of the witness run for C1. -/
def overrideWitnessDoc : Config :=
  ⟨[("stackName", Val.str "template")], none, none, none, none, none, none⟩

/-- The resolved document of the witness run for C1. -/
def overrideWitnessOut : Config :=
  ⟨[("stackName", Val.str "override"), ("other", Val.num 1)],
    none, none, none, none, none, none⟩

/-- C1, witness: a concrete run where the amended theorem applies. -/
theorem stackName_external_override_witness :
    assocLookup overrideWitnessOut.fields "stackName" = some (Val.str "override") :=
  stackName_external_override "override" (by decide) none [] [("other", Val.num 1)]
    overrideWitnessDoc (by rfl) overrideWitnessOut (by rfl)

/-! ## Claim C2: resource dedup -/

/-- One lambda with the three routes of the claim, paths written literally
with their leading slash. -/
def threeRoutesSlashConfig : Config :=
  ⟨[], some [⟨"l1", none, none, none, none,
      some [⟨"Api", "/foo", "GET", false⟩, ⟨"Api", "/foo/bar", "GET", false⟩,
            ⟨"Api", "/foo/baz", "POST", false⟩], none⟩],
    some [⟨"Api"⟩], none, none, none, none⟩

/-- C2, counterexample: with the paths written literally as `/foo`,
`/foo/bar`, `/foo/baz`, `split('/')` produces a leading empty segment, so
the synthesizer emits FOUR resource nodes — the extra node
`ApiGateWayResource` for the empty segment — not the three the claim
states. -/
theorem leading_slash_four_resources_cex :
    (configureApiGateway threeRoutesSlashConfig).map
        (fun c => (c.apiResources.getD []).map ApiResource.name) =
      Except.ok ["ApiGateWayResource", "ApiGateWayResourceFoo",
        "ApiGateWayResourceFooBar", "ApiGateWayResourceFooBaz"] ∧
    ¬ (configureApiGateway threeRoutesSlashConfig).map
        (fun c => (c.apiResources.getD []).length) = Except.ok 3 :=
  ⟨rfl, by decide⟩

/-- The same three routes with the paths written without the leading
slash, as in real kes configurations. -/
def threeRoutesConfig : Config :=
  ⟨[], some [⟨"l1", none, none, none, none,
      some [⟨"Api", "foo", "GET", false⟩, ⟨"Api", "foo/bar", "GET", false⟩,
            ⟨"Api", "foo/baz", "POST", false⟩], none⟩],
    some [⟨"Api"⟩], none, none, none, none⟩

/-- C2 (amended): the synthesizer emits exactly one resource node per
distinct segment-prefix of the split route paths.  For paths `foo`,
`foo/bar`, `foo/baz` this gives exactly 3 resource nodes `Foo`, `FooBar`,
`FooBaz`, with `FooBar` and `FooBaz` both naming the `Foo` resource as
parent, and exactly 3 method nodes; with the literal leading-slash paths a
fourth node for the empty leading segment appears (see the
counterexample). -/
theorem resource_dedup_three_routes :
    (configureApiGateway threeRoutesConfig).map Config.apiResources =
      Except.ok (some
        [{ name := "ApiGateWayResourceFoo", pathPart := "foo",
           parents := ["Fn::GetAtt:", "- ApiRestApi", "- RootResourceId"],
           api := "Api" },
         { name := "ApiGateWayResourceFooBar", pathPart := "bar",
           parents := ["Ref: ApiGateWayResourceFoo"], api := "Api" },
         { name := "ApiGateWayResourceFooBaz", pathPart := "baz",
           parents := ["Ref: ApiGateWayResourceFoo"], api := "Api" }]) ∧
    (configureApiGateway threeRoutesConfig).map
        (fun c => (c.apiMethods.getD []).length) = Except.ok 3 :=
  ⟨rfl, rfl⟩

/-! ## Claim C3: stage-variable merge precedence (step 8) -/

/-- A config document declaring key `k` itself. -/
def collisionDoc : Config :=
  ⟨[("k", Val.str "docval")], none, none, none, none, none, none⟩

/-- The document `parseConfig` actually returns for `collisionDoc`. -/
def collisionOut : Config :=
  ⟨[("k", Val.str "stageval")], none, none, none, none, none, none⟩

/-- C3, counterexample: for a key present in both the parsed document and
the stage variables, the resolved document holds the value of the STAGE
variables — `Object.assign(config, stageConfig)` (line 280) lets the source
win, the reverse of what the claim states. -/
theorem stage_vars_overwrite_cex :
    parseConfigResolve none none [] collisionDoc [("k", Val.str "stageval")] =
      Except.ok collisionOut ∧
    assocLookup collisionOut.fields "k" = some (Val.str "stageval") ∧
    ¬ assocLookup collisionOut.fields "k" = some (Val.str "docval") :=
  ⟨rfl, rfl, by decide⟩

/-- C3 (amended): in step 8 the merged stage-variable mapping wins on
every key collision — for every key bound in the merged
stage-variable/Variable-Store mapping, the resolved document holds that
value of that mapping; the own declared value of the document survives only for keys
absent from the mapping. -/
theorem stage_vars_win_on_collision (stack stage : Option String)
    (envs stageVars : List (String × Val)) (doc : Config) (k : String) (v : Val)
    (hnd : ((objAssign stageVars envs).map Prod.fst).Nodup)
    (hv : assocLookup (objAssign stageVars envs) k = some v)
    (out : Config)
    (hok : parseConfigResolve stack stage envs doc stageVars = Except.ok out) :
    assocLookup out.fields k = some v := by
  rw [parseConfigResolve_ok_fields _ _ _ _ _ _ hok]
  exact assocLookup_objAssign_of_some _ _ _ _ hnd hv

/-- C3, witness: the amended theorem applied to the counterexample run. -/
theorem stage_vars_win_on_collision_witness :
    assocLookup collisionOut.fields "k" = some (Val.str "stageval") :=
  stage_vars_win_on_collision none none [] [("k", Val.str "stageval")] collisionDoc
    "k" (Val.str "stageval") (by decide) (by rfl) collisionOut (by rfl)

/-! ## Claim C4: variable-segment name transform -/

/-- C4, counterexample: the path `/{short_name}/items` yields display
names `ShortnameVar` and leaf key `ShortnameVarItems` — lodash
`replace(s, '_', '')` removes only the first underscore and `upperFirst`
only upper-cases the first letter, so the claimed camel-cased
`ShortNameVar` / `ShortNameVarItems` never appear. -/
theorem variable_segment_name_cex :
    routeSegmentNames "/{short_name}/items" = ["", "ShortnameVar", "Items"] ∧
    String.join (routeSegmentNames "/{short_name}/items") = "ShortnameVarItems" ∧
    ¬ String.join (routeSegmentNames "/{short_name}/items") = "ShortNameVarItems" ∧
    ¬ segmentName "{short_name}" = "ShortNameVar" :=
  ⟨rfl, rfl, by decide, by decide⟩

/-- A single route on the path of the claim. -/
def shortNameConfig : Config :=
  ⟨[], some [⟨"l1", none, none, none, none,
      some [⟨"Api", "/{short_name}/items", "get", false⟩], none⟩],
    some [⟨"Api"⟩], none, none, none, none⟩

/-- C4 (amended): a brace-delimited variable segment has its braces
stripped, its FIRST underscore (only) removed, `Var` appended and its
first letter upper-cased: `{short_name}` becomes `ShortnameVar` and the
leaf key of `/{short_name}/items` is `ShortnameVarItems` (preceded by the
empty display name of the leading empty segment). -/
theorem variable_segment_transform :
    segmentName "{short_name}" = "ShortnameVar" ∧
    (configureApiGateway shortNameConfig).map
        (fun c => (c.apiResources.getD []).map ApiResource.name) =
      Except.ok ["ApiGateWayResource", "ApiGateWayResourceShortnameVar",
        "ApiGateWayResourceShortnameVarItems"] ∧
    (configureApiGateway shortNameConfig).map Config.apiMethods =
      Except.ok (some [{ name := "ApiGatewayMethodShortnameVarItemsGet",
                          method := "GET", cors := false,
                          resource := "ApiGateWayResourceShortnameVarItems",
                          lambda := "l1", api := "Api" }]) :=
  ⟨rfl, rfl, rfl⟩

/-! ## Claim C5: undeclared api identifier is fatal -/

/-- C5: for every document with `apis` and `lambdas` present in which some
route names an api identifier outside the declared `apis` list, the
synthesizer returns an error (never a document, so no partial dependency
list escapes), the error carries an undeclared identifier, and its
diagnostic is `<identifier> is not defined` — exactly the behavior of the
`try`/`catch` of lines 139-147. -/
theorem undeclared_api_errors (config : Config) (apis : List ApiDecl)
    (lambdas : List LambdaSpec) (hapis : config.apis = some apis)
    (hlam : config.lambdas = some lambdas)
    (hbad : ∃ l ∈ lambdas, ∃ routes, l.apiGateway = some routes ∧
        ∃ r ∈ routes, r.api ∉ apis.map ApiDecl.name) :
    ∃ n, configureApiGateway config = Except.error (SynthError.undeclaredApi n) ∧
      n ∉ apis.map ApiDecl.name ∧
      (SynthError.undeclaredApi n).message = n ++ " is not defined" := by
  have hbad2 : ∃ l ∈ lambdas, ∃ routes, l.apiGateway = some routes ∧
      ∃ r ∈ routes, r.api ∉ (initDependencies apis).map Prod.fst := by
    obtain ⟨l, hl, routes, hag, r, hr, hn⟩ := hbad
    exact ⟨l, hl, routes, hag, r, hr,
      fun hc => hn ((mem_keys_initDependencies apis r.api).mp hc)⟩
  obtain ⟨n, hfold, hnm⟩ := foldLambdas_err lambdas
    { apiMethods := [], apiMethodsOptions := [],
      apiDependencies := initDependencies apis, apiResources := [] } hbad2
  refine ⟨n, ?_, fun hc => hnm ((mem_keys_initDependencies apis n).mpr hc), rfl⟩
  simp only [configureApiGateway, hapis, hlam]
  rw [hfold]

/-- The declared apis of the witness run for C5. -/
def witnessApis : List ApiDecl := [⟨"Other"⟩]

/-- The single route of the witness run references `Missing`, which is not in
`witnessApis`. -/
def missingApiConfig : Config :=
  ⟨[], some [⟨"l1", none, none, none, none,
      some [⟨"Missing", "foo", "get", false⟩], none⟩],
    some witnessApis, none, none, none, none⟩

/-- C5, witness: the theorem applied to a route referencing `Missing`
when only `Other` is declared. -/
theorem undeclared_api_errors_witness :
    ∃ n, configureApiGateway missingApiConfig =
        Except.error (SynthError.undeclaredApi n) ∧
      n ∉ witnessApis.map ApiDecl.name ∧
      (SynthError.undeclaredApi n).message = n ++ " is not defined" :=
  undeclared_api_errors missingApiConfig witnessApis
    [⟨"l1", none, none, none, none, some [⟨"Missing", "foo", "get", false⟩], none⟩]
    rfl rfl
    ⟨⟨"l1", none, none, none, none, some [⟨"Missing", "foo", "get", false⟩], none⟩,
      by simp, [⟨"Missing", "foo", "get", false⟩], rfl,
      ⟨"Missing", "foo", "get", false⟩, by simp, by decide⟩

/-! ## Claim C6: method node name and method field -/

/-- A single `GET` route on path `foo`. -/
def getRouteConfig : Config :=
  ⟨[], some [⟨"l1", none, none, none, none, some [⟨"Api", "foo", "GET", false⟩], none⟩],
    some [⟨"Api"⟩], none, none, none, none⟩

/-- C6, counterexample: for the route `GET foo` the method node is named
`ApiGatewayMethodFooGet` — the name suffix is the lodash-`capitalize`d
method (`Get`), not the upper-cased method (`GET`) the claim states (the
method FIELD is upper-cased as claimed). -/
theorem method_name_capitalized_cex :
    (configureApiGateway getRouteConfig).map Config.apiMethods =
      Except.ok (some [{ name := "ApiGatewayMethodFooGet", method := "GET",
                          cors := false, resource := "ApiGateWayResourceFoo",
                          lambda := "l1", api := "Api" }]) ∧
    ¬ (configureApiGateway getRouteConfig).map
        (fun c => (c.apiMethods.getD []).map ApiMethod.name) =
      Except.ok ["ApiGatewayMethodFooGET"] :=
  ⟨rfl, by decide⟩

/-- A document with a single route declaration, with every part of the
route left arbitrary. -/
def singleRouteConfig (a p m ln : String) (c : Bool) : Config :=
  ⟨[], some [⟨ln, none, none, none, none, some [⟨a, p, m, c⟩], none⟩],
    some [⟨a⟩], none, none, none, none⟩

/-- C6 (amended): for every route declaration the created method node has
its `method` field fully upper-cased, and its `name` is `ApiGatewayMethod`
followed by the leaf key (the concatenated display names) followed by the
CAPITALIZED (first letter upper-cased, remainder lower-cased) HTTP method
name — not the fully upper-cased one. -/
theorem method_node_shape (a p m ln : String) (c : Bool) :
    (configureApiGateway (singleRouteConfig a p m ln c)).map Config.apiMethods =
      Except.ok (some [{
        name := "ApiGatewayMethod" ++ String.join (routeSegmentNames p) ++ capitalize m,
        method := strToUpper m, cors := c,
        resource := "ApiGateWayResource" ++ String.join (routeSegmentNames p),
        lambda := ln, api := a }]) := by
  simp [configureApiGateway, singleRouteConfig, processLambda, List.foldlM,
    initDependencies, processRoute, assocSet, assocLookup, except_bind_ok,
    Except.map, routeSegmentNames, strToUpper_capitalize, capitalize_capitalize]

/-! ## Claim C7: lambda defaulter idempotence -/

/-- C7: `configureLambda` is idempotent — applying it twice to any
document equals applying it once (already-set `memory`, `timeout` and
`envs` are untouched, `fullName` and each service `lambdaName` recompute
to the same values, and the positional `map` preserves entry order). -/
theorem configureLambda_idempotent (config : Config) :
    configureLambda (configureLambda config) = configureLambda config := by
  cases hl : config.lambdas with
  | none => simp [configureLambda, hl]
  | some lambdas =>
    simp [configureLambda, hl, List.map_map, Function.comp, configureLambdaEntry_idem]

/-! ## Claim C8: CORS OPTIONS dedup -/

/-- A document with two CORS routes sharing one path and differing only in
the HTTP method. -/
def twoCorsConfig (a p m1 m2 ln : String) : Config :=
  ⟨[], some [⟨ln, none, none, none, none,
      some [⟨a, p, m1, true⟩, ⟨a, p, m2, true⟩], none⟩],
    some [⟨a⟩], none, none, none, none⟩

/-- C8: two CORS-enabled routes sharing the same leaf path (here the whole
path) and differing only in HTTP method produce exactly one
method-OPTIONS node, keyed by the concatenated display-name key of the
leaf. -/
theorem cors_options_dedup (a p m1 m2 ln : String) :
    (configureApiGateway (twoCorsConfig a p m1 m2 ln)).map Config.apiMethodsOptions =
      Except.ok (some [{
        name := "ApiGatewayMethod" ++ String.join (routeSegmentNames p) ++ "Options",
        resource := "ApiGateWayResource" ++ String.join (routeSegmentNames p),
        api := a }]) := by
  simp [configureApiGateway, twoCorsConfig, processLambda, List.foldlM,
    initDependencies, processRoute, assocSet, assocLookup, except_bind_ok,
    Except.map, routeSegmentNames]

/-! ## Claim C9: stage merge -/

/-- The stage document of the stage-merge test: `default: {a:1, b:2}` and stage
`x: {b:3, c:4}`. -/
def mergeStageDoc : StageDoc :=
  ⟨[("a", Val.num 1), ("b", Val.num 2)], [("x", [("b", Val.num 3), ("c", Val.num 4)])]⟩

/-- C9: selecting stage `x` shallow-merges its section onto `default`,
overwriting `b` and appending `c` while retaining `a`; selecting no stage
returns `default` untouched. -/
theorem parseStage_merge :
    parseStage (some "x") mergeStageDoc =
      [("a", Val.num 1), ("b", Val.num 3), ("c", Val.num 4)] ∧
    parseStage none mergeStageDoc = [("a", Val.num 1), ("b", Val.num 2)] :=
  ⟨rfl, rfl⟩

/-! ## Claim C10: apis present, lambdas absent -/

/-- C10: whenever the `apis` list is present but `lambdas` is absent,
`configureApiGateway` throws (the `for (const lambda of config.lambdas)`
loop of line 65 iterates `undefined`) instead of returning a document. -/
theorem configureApiGateway_missing_lambdas (fields : List (String × Val))
    (apis : List ApiDecl) (am : Option (List ApiMethod))
    (ar : Option (List ApiResource)) (amo : Option (List ApiMethodOption))
    (ad : Option (List ApiDependency)) :
    configureApiGateway ⟨fields, none, some apis, am, ar, amo, ad⟩ =
      Except.error SynthError.lambdasNotIterable := rfl

end Kes
